import Mathlib

/-!
Verification of the imagecfg blueprint-to-bash compiler.

This file shallowly embeds the Go program `imagecfg` (cmd/imagecfg): the
structured blueprint model consumed by the block generators, the eight
per-category command generators, the orchestrator `generateBashScript`,
the apply loop of the `apply` subcommand (modelled as a trace of
create/exec/remove events over an abstract script-execution oracle), and
the blueprint-parsing front end (modelled over an abstract TOML decode
result, since the TOML decoder is an external library).

Machine strings are Lean `String`s; Go `*string` and `*int` fields become
`Option String` / `Option Int`; Go slices become `List`s. The generators
are pure in the source and are embedded directly.
-/

namespace Imagecfg

/-- A group entry of the blueprint (`blueprint.Group`): required name,
optional gid. -/
structure BlueprintGroup where
  name : String
  gid : Option Int
deriving Repr, DecidableEq

/-- A user entry of the blueprint (`blueprint.User`). `groups` are the
secondary groups; `key` is the SSH public key. -/
structure BlueprintUser where
  name : String
  password : Option String
  home : Option String
  shell : Option String
  uid : Option Int
  gid : Option Int
  groups : List String
  key : Option String
deriving Repr, DecidableEq

/-- The `services` sub-object of the firewall customization: only its
`enabled` list is consumed by the generator. -/
structure FirewallServices where
  enabled : List String
deriving Repr, DecidableEq

/-- The firewall customization section (`blueprint.FirewallCustomization`). -/
structure FirewallCustomization where
  ports : List String
  services : Option FirewallServices
deriving Repr, DecidableEq

/-- The services customization section (`blueprint.ServicesCustomization`). -/
structure ServicesCustomization where
  enabled : List String
  disabled : List String
  masked : List String
deriving Repr, DecidableEq

/-- The structured blueprint as seen through the accessor methods the
generators call: `GetHostname`, `GetTimezoneSettings`, `GetPrimaryLocale`,
`GetGroups`, `GetUsers`, `GetFirewall`, `GetServices`, `GetPackages`.
An absent section yields `none` / `[]` through the accessors, exactly as
a nil pointer does in Go. -/
structure Blueprint where
  hostname : Option String
  timezone : Option String
  ntpservers : List String
  locale : Option String
  keyboard : Option String
  groups : List BlueprintGroup
  users : List BlueprintUser
  firewall : Option FirewallCustomization
  services : Option ServicesCustomization
  packages : List String
deriving Repr, DecidableEq

/-- The structured model of an empty blueprint document: every section
absent, every list empty (the zero value of `blueprint.Blueprint`). -/
def emptyBlueprint : Blueprint :=
  { hostname := none, timezone := none, ntpservers := [], locale := none,
    keyboard := none, groups := [], users := [], firewall := none,
    services := none, packages := [] }

/-- `generateHostnameCmd`: one `echo` statement writing the hostname
verbatim into /etc/hostname, or the empty string when the hostname is
absent or empty. -/
def generateHostnameCmd (bp : Blueprint) : String :=
  match bp.hostname with
  | none => ""
  | some h => if h = "" then "" else "echo '" ++ h ++ "' > /etc/hostname"

/-- The NTP-server loop of `generateTimezoneCmd`: for each server, a sed
statement deleting any existing matching `server` line, then an echo
statement appending the server with the `iburst` flag. -/
def ntpCmds : List String → List String
  | [] => []
  | ntp :: rest =>
      ("sed -i '/^server " ++ ntp ++ " /d' /etc/chrony.conf") ::
      ("echo 'server " ++ ntp ++ " iburst' >> /etc/chrony.conf") ::
      ntpCmds rest

/-- `generateTimezoneCmd`: an optional `timedatectl set-timezone`
statement followed by the NTP statements, all joined with `&&`. -/
def generateTimezoneCmd (bp : Blueprint) : String :=
  let tzCmds : List String :=
    match bp.timezone with
    | none => []
    | some t => if t = "" then [] else ["timedatectl set-timezone " ++ t]
  String.intercalate " && " (tzCmds ++ ntpCmds bp.ntpservers)

/-- `generateLocaleCmd`: optional `set-locale` then optional `set-keymap`,
joined with `&&`; empty string when neither is set. -/
def generateLocaleCmd (bp : Blueprint) : String :=
  let localeCmds : List String :=
    match bp.locale with
    | none => []
    | some l => if l = "" then [] else ["localectl set-locale LANG=" ++ l]
  let kbCmds : List String :=
    match bp.keyboard with
    | none => []
    | some k => if k = "" then [] else ["localectl set-keymap " ++ k]
  let cmds := localeCmds ++ kbCmds
  if cmds = [] then "" else String.intercalate " && " cmds

/-- The raw `groupadd` command for one group, with `--gid` when a gid is
given. -/
def groupaddCmd (g : BlueprintGroup) : String :=
  let base :=
    match g.gid with
    | none => "groupadd"
    | some gid => "groupadd" ++ " --gid " ++ toString gid
  base ++ " " ++ g.name

/-- The guarded creation line for one group: run `groupadd` only when
`getent group` does not already find the group. -/
def groupSafeAddCmd (g : BlueprintGroup) : String :=
  "(getent group " ++ g.name ++ " > /dev/null || " ++ groupaddCmd g ++ ")"

/-- `generateGroupsBlockCmd`: one guarded creation line per group,
newline-joined; empty string when there are no groups. -/
def generateGroupsBlockCmd (bp : Blueprint) : String :=
  if bp.groups = [] then ""
  else String.intercalate "\n" (bp.groups.map groupSafeAddCmd)

/-- The full `useradd` command for one user: optional explicit home
(`-d <home> -m`, else just `-m`), optional shell, uid, gid. -/
def useraddFullCmd (u : BlueprintUser) : String :=
  let homeParts :=
    match u.home with
    | none => ["-m"]
    | some h => if h = "" then ["-m"] else ["-d", h, "-m"]
  let shellParts :=
    match u.shell with
    | none => []
    | some s => if s = "" then [] else ["-s", s]
  let uidParts :=
    match u.uid with
    | none => []
    | some n => ["-u", toString n]
  let gidParts :=
    match u.gid with
    | none => []
    | some n => ["-g", toString n]
  String.intercalate " "
    (["useradd"] ++ homeParts ++ shellParts ++ uidParts ++ gidParts)

/-- The home directory used for the SSH-key sequence: the explicit home
when given and non-empty, else `/home/<name>`. -/
def userHomeDir (u : BlueprintUser) : String :=
  match u.home with
  | none => "/home/" ++ u.name
  | some h => if h = "" then "/home/" ++ u.name else h

/-- The SSH-key sequence for one user: create `.ssh`, write the key as
the sole content of `authorized_keys`, set modes 700/600, chown to
`<name>:<name>` (the code assumes the primary group name equals the user
name). -/
def userSshCmd (u : BlueprintUser) (key : String) : String :=
  let homeDir := userHomeDir u
  "mkdir -p " ++ homeDir ++ "/.ssh && echo '" ++ key ++ "' | tee " ++
    homeDir ++ "/.ssh/authorized_keys > /dev/null && chmod 700 " ++
    homeDir ++ "/.ssh && chmod 600 " ++ homeDir ++
    "/.ssh/authorized_keys && chown -R " ++ u.name ++ ":" ++ u.name ++
    " " ++ homeDir ++ "/.ssh"

/-- The `&&`-chained command list for one user: guarded creation, then
optional secondary-group, password and SSH-key statements. -/
def singleUserCmds (u : BlueprintUser) : List String :=
  let guard :=
    "(getent passwd " ++ u.name ++ " > /dev/null || " ++ useraddFullCmd u ++ ")"
  let groupCmds :=
    if u.groups = [] then []
    else ["usermod -aG " ++ String.intercalate "," u.groups ++ " " ++ u.name]
  let pwCmds :=
    match u.password with
    | none => []
    | some p =>
        if p = "" then []
        else ["echo '" ++ u.name ++ ":" ++ p ++ "' | chpasswd -e"]
  let sshCmds :=
    match u.key with
    | none => []
    | some k => if k = "" then [] else [userSshCmd u k]
  guard :: (groupCmds ++ pwCmds ++ sshCmds)

/-- `generateUsersBlockCmd`: each user's commands `&&`-chained on one
line, lines newline-joined; empty string when there are no users. -/
def generateUsersBlockCmd (bp : Blueprint) : String :=
  if bp.users = [] then ""
  else
    String.intercalate "\n"
      (bp.users.map (fun u => String.intercalate " && " (singleUserCmds u)))

/-- The port rules of `generateFirewallCmd`, one per port spec in order. -/
def firewallPortRules (ports : List String) : List String :=
  ports.map (fun port => "firewall-offline-cmd --add-port=" ++ port)

/-- The service rules of `generateFirewallCmd`, one per enabled service
in order; none when the services sub-object is absent. -/
def firewallServiceRules (services : Option FirewallServices) : List String :=
  match services with
  | none => []
  | some svcs =>
      svcs.enabled.map (fun s => "firewall-offline-cmd --add-service=" ++ s)

/-- `generateFirewallCmd`: port rules then service rules, `&&`-joined;
empty string when the firewall section is absent or yields no rules. -/
def generateFirewallCmd (bp : Blueprint) : String :=
  match bp.firewall with
  | none => ""
  | some fw =>
      let rules := firewallPortRules fw.ports ++ firewallServiceRules fw.services
      if rules = [] then "" else String.intercalate " && " rules

/-- `generateServicesCmd`: enable statements, then disable, then mask,
`&&`-joined; empty string when the section is absent or all three lists
are empty. -/
def generateServicesCmd (bp : Blueprint) : String :=
  match bp.services with
  | none => ""
  | some svc =>
      let cmds :=
        svc.enabled.map (fun s => "systemctl enable " ++ s) ++
        svc.disabled.map (fun s => "systemctl disable " ++ s) ++
        svc.masked.map (fun s => "systemctl mask " ++ s)
      if cmds = [] then "" else String.intercalate " && " cmds

/-- `generatePackagesCmd`: one `dnf install -y` statement listing all
packages space-separated; empty string when the list is empty. -/
def generatePackagesCmd (bp : Blueprint) : String :=
  if bp.packages = [] then ""
  else "dnf install -y " ++ String.intercalate " " bp.packages

/-- A named block of commands produced by the orchestrator
(`NamedCommandBlock` in the source). -/
structure NamedCommandBlock where
  name : String
  commands : String
deriving Repr, DecidableEq

/-- The fixed script header: shebang plus strict-mode preamble. -/
def scriptHeader : String := "#!/bin/bash\nset -euf -o pipefail\n\n"

/-- The fixed ordered dispatch table of `generateBashScript`: category
name paired with its generator, in the designed order. In Go each
generator also returns an error, which is always nil for these eight
generators, so the error channel is elided here. -/
def blockGenerators : List (String × (Blueprint → String)) :=
  [("Packages", generatePackagesCmd),
   ("Hostname", generateHostnameCmd),
   ("Timezone", generateTimezoneCmd),
   ("Locale", generateLocaleCmd),
   ("Groups", generateGroupsBlockCmd),
   ("Users", generateUsersBlockCmd),
   ("Firewall", generateFirewallCmd),
   ("Services", generateServicesCmd)]

/-- The generator loop of `generateBashScript`: run each generator in
table order, keep the non-empty results as named blocks. -/
def runGenerators (bp : Blueprint) : List (String × (Blueprint → String)) → List NamedCommandBlock
  | [] => []
  | blk :: rest =>
      let cmdStr := blk.2 bp
      if cmdStr = "" then runGenerators bp rest
      else ⟨blk.1, cmdStr⟩ :: runGenerators bp rest

/-- `generateBashScript`: returns the fixed header and the ordered list
of non-empty named command blocks. -/
def generateBashScript (bp : Blueprint) : String × List NamedCommandBlock :=
  (scriptHeader, runGenerators bp blockGenerators)

/-- An observable event of the apply loop: materializing the temporary
script for the block at a list index, executing it, or removing it. -/
inductive ApplyEvent where
  | create (i : Nat)
  | exec (i : Nat)
  | remove (i : Nat)
deriving Repr, DecidableEq

/-- What the apply loop reports for a failing block: the block name, the
execution error details, and the block's exact command text. -/
structure ApplyReport where
  blockName : String
  errDetails : String
  commands : String
deriving Repr, DecidableEq

/-- Outcome of the `apply` subcommand's `RunE`. -/
inductive ApplyOutcome where
  | noConfigs
  | success
  | failed (report : ApplyReport)
deriving Repr, DecidableEq

/-- Go's `strings.TrimSpace`, used by the apply loop to skip blank
blocks: drop leading and trailing whitespace characters. -/
def trimSpace (s : String) : String :=
  String.mk (((s.data.dropWhile Char.isWhitespace).reverse.dropWhile
    Char.isWhitespace).reverse)

/-- The block loop of `applyCmd`'s `RunE`, modelled over an abstract
execution oracle `runRes` (`none` = the block's script exited 0, `some e`
= it failed with error details `e`; file creation, writing and chmod are
modelled as succeeding). `i` is the index of the head of `rest` in the
full block list; `defers` is the stack of indices whose temp-file removal
has been deferred — in Go the deferred removals run only when `RunE`
returns, last-in-first-out, which is why every return path appends
`defers.map remove` and no removal happens between iterations. -/
def applyLoop (runRes : Nat → Option String) :
    List NamedCommandBlock → Nat → List Nat → ApplyOutcome × List ApplyEvent
  | [], _, defers => (ApplyOutcome.success, defers.map ApplyEvent.remove)
  | b :: rest, i, defers =>
      if trimSpace b.commands = "" then applyLoop runRes rest (i + 1) defers
      else
        match runRes i with
        | none =>
            let res := applyLoop runRes rest (i + 1) (i :: defers)
            (res.1, ApplyEvent.create i :: ApplyEvent.exec i :: res.2)
        | some e =>
            (ApplyOutcome.failed ⟨b.name, e, b.commands⟩,
             ApplyEvent.create i :: ApplyEvent.exec i ::
               (i :: defers).map ApplyEvent.remove)

/-- `applyCmd`'s `RunE` over an already-compiled block list: a no-op
outcome on an empty list, otherwise the block loop from index 0 with an
empty defer stack. -/
def applyBlocks (runRes : Nat → Option String) (blocks : List NamedCommandBlock) :
    ApplyOutcome × List ApplyEvent :=
  if blocks = [] then (ApplyOutcome.noConfigs, [])
  else applyLoop runRes blocks 0 []

/-- The error string `RunE` returns for a failing block
(`execution failed for block '<name>'`). -/
def applyErrString (r : ApplyReport) : String :=
  "execution failed for block '" ++ r.blockName ++ "'"

/-- Process exit code: `Execute` calls `os.Exit(1)` exactly when `RunE`
returned an error, which the apply path does only for a failed block. -/
def applyExitCode : ApplyOutcome → Nat
  | ApplyOutcome.failed _ => 1
  | _ => 0

/-- The property C3 asserts of an apply trace: each block's temporary
script is removed before the next block's script is materialized. -/
def removalBeforeNextProcessed (evs : List ApplyEvent) : Prop :=
  ∀ i, ApplyEvent.create (i + 1) ∈ evs →
    ApplyEvent.remove i ∈ evs ∧
    evs.indexOf (ApplyEvent.remove i) < evs.indexOf (ApplyEvent.create (i + 1))

/-- The result of opening and TOML-decoding a blueprint file, abstracted:
the decoder is an external library, so its outcome is an oracle input.
`ok bp undecoded` carries the decoded blueprint and the list of
undecoded (unknown) key names reported by the decoder metadata. -/
inductive DecodeResult where
  | openError (msg : String)
  | decodeError (msg : String)
  | ok (bp : Blueprint) (undecoded : List String)
deriving Repr, DecidableEq

/-- `parseBlueprint`: wraps an open failure or decode failure in a
path-qualified error, rejects documents with undecoded keys with an
error naming those keys, and otherwise returns the blueprint. -/
def parseBlueprint (path : String) (r : DecodeResult) : Except String Blueprint :=
  match r with
  | DecodeResult.openError m =>
      Except.error ("error opening blueprint file " ++ path ++ ": " ++ m)
  | DecodeResult.decodeError m =>
      Except.error ("error parsing blueprint TOML from " ++ path ++ ": " ++ m)
  | DecodeResult.ok bp undecoded =>
      if undecoded = [] then Except.ok bp
      else
        Except.error ("unknown configuration keys in " ++ path ++ ": " ++
          String.intercalate ", " undecoded)

/-- The shared front half of both subcommands' `RunE`: parse the
blueprint, then compile it; block generation happens only after a
successful parse. -/
def loadAndGenerate (path : String) (r : DecodeResult) :
    Except String (String × List NamedCommandBlock) :=
  match parseBlueprint path r with
  | Except.error e => Except.error e
  | Except.ok bp => Except.ok (generateBashScript bp)

/-- Process exit code of a subcommand: `Execute` exits 1 when `RunE`
returned an error, 0 otherwise. -/
def cmdExitCode : Except String (String × List NamedCommandBlock) → Nat
  | Except.error _ => 1
  | Except.ok _ => 0

/-! Helper lemmas. -/

/-- The generator loop equals a map over the dispatch table followed by a
filter that drops the categories whose generator returned `""`. -/
lemma runGenerators_eq_filter (bp : Blueprint) :
    ∀ gens, runGenerators bp gens =
      (gens.map fun blk => NamedCommandBlock.mk blk.1 (blk.2 bp)).filter
        (fun nb => nb.commands != "") := by
  intro gens
  induction gens with
  | nil => rfl
  | cons blk rest ih =>
      simp only [runGenerators, List.map_cons, List.filter_cons]
      by_cases h : blk.2 bp = ""
      · simp [h, ih]
      · simp [h, ih]

/-- The NTP loop emits exactly two statements per server. -/
lemma ntpCmds_length : ∀ l : List String, (ntpCmds l).length = 2 * l.length := by
  intro l
  induction l with
  | nil => rfl
  | cons n rest ih => simp [ntpCmds, ih]; omega

/-! Claim theorems. -/

/-- C1: the compiler runs the eight generators in the fixed order
Packages, Hostname, Timezone, Locale, Groups, Users, Firewall, Services,
and the returned block list is exactly that ordered sequence of named
results with the categories whose generator returned `""` removed. The
structured model carries no key order, so the result is independent of
the input document's key order by construction. -/
theorem generateBashScript_fixed_order (bp : Blueprint) :
    (generateBashScript bp).2 =
      (blockGenerators.map fun blk => NamedCommandBlock.mk blk.1 (blk.2 bp)).filter
        (fun nb => nb.commands != "") ∧
    blockGenerators.map Prod.fst =
      ["Packages", "Hostname", "Timezone", "Locale", "Groups", "Users",
       "Firewall", "Services"] :=
  ⟨runGenerators_eq_filter bp blockGenerators, rfl⟩

/-- C10: a non-empty hostname is interpolated verbatim, with no escaping,
into `echo '<h>' > /etc/hostname`; in particular a hostname containing a
single quote appears unescaped inside the single-quoted argument. -/
theorem generateHostnameCmd_verbatim :
    (∀ (bp : Blueprint) (h : String), bp.hostname = some h → h ≠ "" →
      generateHostnameCmd bp = "echo '" ++ h ++ "' > /etc/hostname") ∧
    generateHostnameCmd { emptyBlueprint with hostname := some "my'server" } =
      "echo 'my'server' > /etc/hostname" := by
  constructor
  · intro bp h hbp hne
    simp [generateHostnameCmd, hbp, hne]
  · rfl

/-- C10 witness: the theorem applied at a concrete hostname. -/
theorem generateHostnameCmd_verbatim_witness :
    generateHostnameCmd { emptyBlueprint with hostname := some "my-server" } =
      "echo 'my-server' > /etc/hostname" :=
  generateHostnameCmd_verbatim.1 _ "my-server" rfl (by decide)

/-- C5: every generator returns `""` on an absent or empty input section,
and the empty document compiles to an empty block list. -/
theorem generators_empty_input (bp : Blueprint) :
    ((bp.hostname = none ∨ bp.hostname = some "") → generateHostnameCmd bp = "") ∧
    ((bp.timezone = none ∨ bp.timezone = some "") → bp.ntpservers = [] →
      generateTimezoneCmd bp = "") ∧
    ((bp.locale = none ∨ bp.locale = some "") →
      (bp.keyboard = none ∨ bp.keyboard = some "") → generateLocaleCmd bp = "") ∧
    (bp.groups = [] → generateGroupsBlockCmd bp = "") ∧
    (bp.users = [] → generateUsersBlockCmd bp = "") ∧
    (bp.firewall = none → generateFirewallCmd bp = "") ∧
    (∀ fw, bp.firewall = some fw → fw.ports = [] →
      firewallServiceRules fw.services = [] → generateFirewallCmd bp = "") ∧
    (bp.services = none → generateServicesCmd bp = "") ∧
    (∀ svc, bp.services = some svc → svc.enabled = [] → svc.disabled = [] →
      svc.masked = [] → generateServicesCmd bp = "") ∧
    (bp.packages = [] → generatePackagesCmd bp = "") ∧
    (generateBashScript emptyBlueprint).2 = [] := by
  refine ⟨?_, ?_, ?_, ?_, ?_, ?_, ?_, ?_, ?_, ?_, ?_⟩
  · rintro (h | h) <;> simp [generateHostnameCmd, h]
  · rintro (h | h) hn <;> simp [generateTimezoneCmd, ntpCmds, h, hn] <;> rfl
  · rintro (h | h) (h2 | h2) <;> simp [generateLocaleCmd, h, h2]
  · intro h; simp [generateGroupsBlockCmd, h]
  · intro h; simp [generateUsersBlockCmd, h]
  · intro h; simp [generateFirewallCmd, h]
  · intro fw h hp hs; simp [generateFirewallCmd, firewallPortRules, h, hp, hs]
  · intro h; simp [generateServicesCmd, h]
  · intro svc h he hd hm; simp [generateServicesCmd, h, he, hd, hm]
  · intro h; simp [generatePackagesCmd, h]
  · rfl

/-- C5 witness: the theorem applied at the empty blueprint, discharging
each emptiness hypothesis there. -/
theorem generators_empty_input_witness :
    generateHostnameCmd emptyBlueprint = "" ∧
    generateTimezoneCmd emptyBlueprint = "" ∧
    generateLocaleCmd emptyBlueprint = "" ∧
    generateGroupsBlockCmd emptyBlueprint = "" ∧
    generateUsersBlockCmd emptyBlueprint = "" ∧
    generateFirewallCmd emptyBlueprint = "" ∧
    generateServicesCmd emptyBlueprint = "" ∧
    generatePackagesCmd emptyBlueprint = "" ∧
    (generateBashScript emptyBlueprint).2 = [] := by
  have h := generators_empty_input emptyBlueprint
  exact ⟨h.1 (Or.inl rfl), h.2.1 (Or.inl rfl) rfl, h.2.2.1 (Or.inl rfl) (Or.inl rfl),
    h.2.2.2.1 rfl, h.2.2.2.2.1 rfl, h.2.2.2.2.2.1 rfl, h.2.2.2.2.2.2.2.1 rfl,
    h.2.2.2.2.2.2.2.2.2.1 rfl, h.2.2.2.2.2.2.2.2.2.2⟩

/-- C6: with a timezone set, the Timezone block is the zone-selection
statement followed by, per NTP server in document order, a remove-then-
append pair, all `&&`-joined; the NTP part has exactly two statements per
server, and with a single server it is exactly the remove statement then
the append statement for it. -/
theorem generateTimezoneCmd_structure (bp : Blueprint) (t : String)
    (hbp : bp.timezone = some t) (ht : t ≠ "") :
    generateTimezoneCmd bp =
      String.intercalate " && "
        (("timedatectl set-timezone " ++ t) :: ntpCmds bp.ntpservers) ∧
    (ntpCmds bp.ntpservers).length = 2 * bp.ntpservers.length ∧
    (∀ n, bp.ntpservers = [n] →
      ntpCmds bp.ntpservers =
        [("sed -i '/^server " ++ n ++ " /d' /etc/chrony.conf"),
         ("echo 'server " ++ n ++ " iburst' >> /etc/chrony.conf")]) := by
  refine ⟨?_, ntpCmds_length bp.ntpservers, ?_⟩
  · simp [generateTimezoneCmd, hbp, ht]
  · intro n hn; simp [hn, ntpCmds]

/-- C6 witness: the theorem applied at a blueprint with timezone
America/New_York and the single NTP server pool.ntp.org. -/
theorem generateTimezoneCmd_structure_witness :
    generateTimezoneCmd
        { emptyBlueprint with timezone := some "America/New_York",
                              ntpservers := ["pool.ntp.org"] } =
      "timedatectl set-timezone America/New_York && sed -i '/^server pool.ntp.org /d' /etc/chrony.conf && echo 'server pool.ntp.org iburst' >> /etc/chrony.conf" := by
  have h := generateTimezoneCmd_structure
    { emptyBlueprint with timezone := some "America/New_York",
                          ntpservers := ["pool.ntp.org"] }
    "America/New_York" rfl (by decide)
  rw [h.1]
  rfl

/-- C7: with a firewall section present, the block is the port rules (one
`--add-port` statement per port spec, document order) followed by the
service rules (one `--add-service` statement per enabled service,
document order), `&&`-joined; the generator returns `""` when the
section is absent and when it yields no rules (both lists empty). -/
theorem generateFirewallCmd_structure (bp : Blueprint) :
    (bp.firewall = none → generateFirewallCmd bp = "") ∧
    (∀ fw, bp.firewall = some fw →
      (firewallPortRules fw.ports ++ firewallServiceRules fw.services = [] →
        generateFirewallCmd bp = "") ∧
      (firewallPortRules fw.ports ++ firewallServiceRules fw.services ≠ [] →
        generateFirewallCmd bp =
          String.intercalate " && "
            (firewallPortRules fw.ports ++ firewallServiceRules fw.services)) ∧
      firewallPortRules fw.ports =
        fw.ports.map (fun port => "firewall-offline-cmd --add-port=" ++ port) ∧
      (∀ svcs, fw.services = some svcs →
        firewallServiceRules fw.services =
          svcs.enabled.map (fun s => "firewall-offline-cmd --add-service=" ++ s) ∧
        (firewallPortRules fw.ports ++ firewallServiceRules fw.services).length =
          fw.ports.length + svcs.enabled.length)) := by
  constructor
  · intro h; simp [generateFirewallCmd, h]
  · intro fw h
    refine ⟨?_, ?_, rfl, ?_⟩
    · intro hr; simp [generateFirewallCmd, h, hr]
    · intro hr; simp [generateFirewallCmd, h, hr]
    · intro svcs hs
      refine ⟨by simp [firewallServiceRules, hs], ?_⟩
      simp [firewallPortRules, firewallServiceRules, hs]

/-- C7 witness: the theorem applied at a firewall section with two ports
and two enabled services yields the four rule statements, ports before
services, each in input order. -/
theorem generateFirewallCmd_structure_witness :
    generateFirewallCmd
        { emptyBlueprint with
            firewall := some { ports := ["80/tcp", "443/tcp"],
                               services := some { enabled := ["http", "https"] } } } =
      "firewall-offline-cmd --add-port=80/tcp && firewall-offline-cmd --add-port=443/tcp && firewall-offline-cmd --add-service=http && firewall-offline-cmd --add-service=https" ∧
    (firewallPortRules ["80/tcp", "443/tcp"] ++
      firewallServiceRules (some { enabled := ["http", "https"] })).length = 4 := by
  have h := (generateFirewallCmd_structure
    { emptyBlueprint with
        firewall := some { ports := ["80/tcp", "443/tcp"],
                           services := some { enabled := ["http", "https"] } } }).2
    { ports := ["80/tcp", "443/tcp"],
      services := some { enabled := ["http", "https"] } } rfl
  refine ⟨?_, (h.2.2.2 { enabled := ["http", "https"] } rfl).2⟩
  rw [h.2.1 (by decide)]
  rfl

/-- C8: for a user with a non-empty SSH public key, the user's `&&`-chain
contains the SSH sequence, which creates `.ssh` under the user's home
directory (explicit home if given and non-empty, else `/home/<name>`),
writes the key as the sole content of `authorized_keys`, sets the
directory to mode 700 and the file to mode 600, and chowns to
`<name>:<name>`. -/
theorem userSshCmd_in_chain (u : BlueprintUser) (k : String)
    (hk : u.key = some k) (hne : k ≠ "") :
    userSshCmd u k ∈ singleUserCmds u ∧
    userSshCmd u k =
      "mkdir -p " ++ userHomeDir u ++ "/.ssh && echo '" ++ k ++ "' | tee " ++
        userHomeDir u ++ "/.ssh/authorized_keys > /dev/null && chmod 700 " ++
        userHomeDir u ++ "/.ssh && chmod 600 " ++ userHomeDir u ++
        "/.ssh/authorized_keys && chown -R " ++ u.name ++ ":" ++ u.name ++
        " " ++ userHomeDir u ++ "/.ssh" ∧
    (u.home = none → userHomeDir u = "/home/" ++ u.name) ∧
    (∀ hm, u.home = some hm → hm ≠ "" → userHomeDir u = hm) := by
  refine ⟨?_, rfl, ?_, ?_⟩
  · simp [singleUserCmds, hk, hne]
  · intro h; simp [userHomeDir, h]
  · intro hm h hmne; simp [userHomeDir, h, hmne]

/-- C8 witness: the theorem applied at a concrete user without an
explicit home. -/
theorem userSshCmd_in_chain_witness :
    userSshCmd
        { name := "admin", password := none, home := none, shell := none,
          uid := none, gid := none, groups := [], key := some "ssh-rsa AAAA" }
        "ssh-rsa AAAA" ∈
      singleUserCmds
        { name := "admin", password := none, home := none, shell := none,
          uid := none, gid := none, groups := [], key := some "ssh-rsa AAAA" } ∧
    userHomeDir
        { name := "admin", password := none, home := none, shell := none,
          uid := none, gid := none, groups := [], key := some "ssh-rsa AAAA" } =
      "/home/" ++ "admin" := by
  have h := userSshCmd_in_chain
    { name := "admin", password := none, home := none, shell := none,
      uid := none, gid := none, groups := [], key := some "ssh-rsa AAAA" }
    "ssh-rsa AAAA" rfl (by decide)
  exact ⟨h.1, h.2.2.1 rfl⟩

/-- C4: every group line and every user chain begins its creation with an
existence guard: the creation command sits on the right of `||` behind a
`getent` check, so under shell semantics it runs only when the entity is
absent, making a second application not fail on already-exists. The
blocks are exactly the joined guarded lines. -/
theorem guarded_creation (bp : Blueprint) :
    (∀ g ∈ bp.groups, ∃ create,
      groupSafeAddCmd g =
        "(getent group " ++ g.name ++ " > /dev/null || " ++ create ++ ")") ∧
    (bp.groups ≠ [] →
      generateGroupsBlockCmd bp =
        String.intercalate "\n" (bp.groups.map groupSafeAddCmd)) ∧
    (∀ u ∈ bp.users, ∃ create,
      (singleUserCmds u).head? =
        some ("(getent passwd " ++ u.name ++ " > /dev/null || " ++ create ++ ")")) ∧
    (bp.users ≠ [] →
      generateUsersBlockCmd bp =
        String.intercalate "\n"
          (bp.users.map fun u => String.intercalate " && " (singleUserCmds u))) := by
  refine ⟨?_, ?_, ?_, ?_⟩
  · intro g _; exact ⟨groupaddCmd g, rfl⟩
  · intro h; simp [generateGroupsBlockCmd, h]
  · intro u _; exact ⟨useraddFullCmd u, rfl⟩
  · intro h; simp [generateUsersBlockCmd, h]

/-- C4 witness: the theorem applied at a blueprint with one group and one
user. -/
theorem guarded_creation_witness :
    generateGroupsBlockCmd
        { emptyBlueprint with
            groups := [{ name := "developers", gid := some 1000 }] } =
      String.intercalate "\n"
        (List.map groupSafeAddCmd [{ name := "developers", gid := some 1000 }]) ∧
    (∃ create,
      groupSafeAddCmd { name := "developers", gid := some 1000 } =
        "(getent group " ++ "developers" ++ " > /dev/null || " ++ create ++ ")") := by
  have h := guarded_creation
    { emptyBlueprint with groups := [{ name := "developers", gid := some 1000 }] }
  exact ⟨h.2.1 (by decide), h.1 { name := "developers", gid := some 1000 } (by decide)⟩

/-- C9: a decode result with undecoded keys makes `parseBlueprint` return
the distinct error naming those keys (comma-joined), and the subcommand
pipeline then returns that error without generating any blocks and exits
non-zero; an open failure or a malformed document likewise yields an
error before any block generation. -/
theorem parse_rejects_bad_input (path : String) (r : DecodeResult) :
    (∀ bp undecoded, r = DecodeResult.ok bp undecoded → undecoded ≠ [] →
      parseBlueprint path r =
        Except.error ("unknown configuration keys in " ++ path ++ ": " ++
          String.intercalate ", " undecoded) ∧
      loadAndGenerate path r =
        Except.error ("unknown configuration keys in " ++ path ++ ": " ++
          String.intercalate ", " undecoded) ∧
      cmdExitCode (loadAndGenerate path r) = 1) ∧
    (∀ m, r = DecodeResult.openError m →
      loadAndGenerate path r =
        Except.error ("error opening blueprint file " ++ path ++ ": " ++ m) ∧
      cmdExitCode (loadAndGenerate path r) = 1) ∧
    (∀ m, r = DecodeResult.decodeError m →
      loadAndGenerate path r =
        Except.error ("error parsing blueprint TOML from " ++ path ++ ": " ++ m) ∧
      cmdExitCode (loadAndGenerate path r) = 1) := by
  refine ⟨?_, ?_, ?_⟩
  · intro bp undecoded hr hu
    subst hr
    refine ⟨by simp [parseBlueprint, hu], ?_, ?_⟩
    · simp [loadAndGenerate, parseBlueprint, hu]
    · simp [cmdExitCode, loadAndGenerate, parseBlueprint, hu]
  · intro m hr
    subst hr
    exact ⟨rfl, rfl⟩
  · intro m hr
    subst hr
    exact ⟨rfl, rfl⟩

/-- C9 witness: the theorem applied at a concrete path and a decode
result carrying two unknown keys. -/
theorem parse_rejects_bad_input_witness :
    parseBlueprint "config.toml"
        (DecodeResult.ok emptyBlueprint ["customizations.foo", "bar"]) =
      Except.error
        ("unknown configuration keys in config.toml: customizations.foo, bar") ∧
    cmdExitCode
        (loadAndGenerate "config.toml"
          (DecodeResult.ok emptyBlueprint ["customizations.foo", "bar"])) = 1 := by
  have h := (parse_rejects_bad_input "config.toml"
    (DecodeResult.ok emptyBlueprint ["customizations.foo", "bar"])).1
    emptyBlueprint ["customizations.foo", "bar"] rfl (by decide)
  refine ⟨?_, h.2.2⟩
  rw [h.1]
  rfl

/-- Unfolding: the loop on the empty list returns success and runs the
deferred removals last-in-first-out. -/
lemma applyLoop_nil (runRes : Nat → Option String) (i : Nat) (defers : List Nat) :
    applyLoop runRes [] i defers =
      (ApplyOutcome.success, defers.map ApplyEvent.remove) := rfl

/-- Unfolding: a blank block is skipped without any event. -/
lemma applyLoop_cons_skip (runRes : Nat → Option String)
    (b : NamedCommandBlock) (bs : List NamedCommandBlock) (i : Nat)
    (defers : List Nat) (hb : trimSpace b.commands = "") :
    applyLoop runRes (b :: bs) i defers = applyLoop runRes bs (i + 1) defers := by
  simp [applyLoop, hb]

/-- Unfolding: a non-blank block whose script succeeds materializes and
runs its script, pushes its index on the defer stack, and continues. -/
lemma applyLoop_cons_none (runRes : Nat → Option String)
    (b : NamedCommandBlock) (bs : List NamedCommandBlock) (i : Nat)
    (defers : List Nat) (hb : ¬ trimSpace b.commands = "")
    (h0 : runRes i = none) :
    applyLoop runRes (b :: bs) i defers =
      ((applyLoop runRes bs (i + 1) (i :: defers)).1,
       ApplyEvent.create i :: ApplyEvent.exec i ::
         (applyLoop runRes bs (i + 1) (i :: defers)).2) := by
  simp [applyLoop, hb, h0]

/-- Unfolding: a non-blank block whose script fails stops the loop with
a failure report and runs all deferred removals. -/
lemma applyLoop_cons_some (runRes : Nat → Option String)
    (b : NamedCommandBlock) (bs : List NamedCommandBlock) (i : Nat)
    (defers : List Nat) (e : String) (hb : ¬ trimSpace b.commands = "")
    (hs : runRes i = some e) :
    applyLoop runRes (b :: bs) i defers =
      (ApplyOutcome.failed ⟨b.name, e, b.commands⟩,
       ApplyEvent.create i :: ApplyEvent.exec i ::
         (i :: defers).map ApplyEvent.remove) := by
  simp [applyLoop, hb, hs]

/-- If the block at relative position `j` is the first whose script
fails, the loop reports exactly that block and the executed scripts are
exactly those at absolute indices `i` through `i + j`. -/
lemma applyLoop_first_fail (runRes : Nat → Option String) :
    ∀ (rest : List NamedCommandBlock) (j i : Nat) (defers : List Nat) (e : String)
      (_hne : ∀ b ∈ rest, trimSpace b.commands ≠ "")
      (hj : j < rest.length),
      (∀ k, k < j → runRes (i + k) = none) →
      runRes (i + j) = some e →
      (applyLoop runRes rest i defers).1 =
        ApplyOutcome.failed
          ⟨(rest.get ⟨j, hj⟩).name, e, (rest.get ⟨j, hj⟩).commands⟩ ∧
      (∀ k, ApplyEvent.exec k ∈ (applyLoop runRes rest i defers).2 ↔
        i ≤ k ∧ k ≤ i + j) := by
  intro rest
  induction rest with
  | nil => intro j i defers e _hne hj; exact absurd hj (Nat.not_lt_zero j)
  | cons b bs ih =>
      intro j i defers e hne hj hbefore hfail
      have hb : ¬ trimSpace b.commands = "" := hne b (List.mem_cons_self b bs)
      match j with
      | 0 =>
          have hfail0 : runRes i = some e := by simpa using hfail
          rw [applyLoop_cons_some runRes b bs i defers e hb hfail0]
          refine ⟨rfl, ?_⟩
          intro k
          simp [List.mem_cons, List.mem_map]
          omega
      | jj + 1 =>
          have h0 : runRes i = none := by
            have := hbefore 0 (Nat.succ_pos jj)
            simpa using this
          have hne' : ∀ c ∈ bs, trimSpace c.commands ≠ "" :=
            fun c hc => hne c (List.mem_cons_of_mem b hc)
          have hj' : jj < bs.length := Nat.lt_of_succ_lt_succ hj
          have hbefore' : ∀ k, k < jj → runRes (i + 1 + k) = none := by
            intro k hk
            have := hbefore (k + 1) (Nat.succ_lt_succ hk)
            have harith : i + (k + 1) = i + 1 + k := by omega
            rwa [harith] at this
          have hfail' : runRes (i + 1 + jj) = some e := by
            have harith : i + (jj + 1) = i + 1 + jj := by omega
            rwa [harith] at hfail
          have hrec := ih jj (i + 1) (i :: defers) e hne' hj' hbefore' hfail'
          rw [applyLoop_cons_none runRes b bs i defers hb h0]
          refine ⟨hrec.1, ?_⟩
          intro k
          have hiff := hrec.2 k
          simp only [List.mem_cons]
          constructor
          · rintro (hk | hk | hk)
            · exact absurd hk (by simp)
            · have : k = i := by injection hk
              omega
            · have := hiff.mp hk
              omega
          · intro hk
            by_cases hki : k = i
            · exact Or.inr (Or.inl (by rw [hki]))
            · exact Or.inr (Or.inr (hiff.mpr (by omega)))

/-- Every index on the defer stack has its temp script removed in the
loop's final trace, on every return path. -/
lemma applyLoop_defers_removed (runRes : Nat → Option String) :
    ∀ (rest : List NamedCommandBlock) (i : Nat) (defers : List Nat) (d : Nat),
      d ∈ defers →
      ApplyEvent.remove d ∈ (applyLoop runRes rest i defers).2 := by
  intro rest
  induction rest with
  | nil =>
      intro i defers d hd
      rw [applyLoop_nil]
      exact List.mem_map_of_mem ApplyEvent.remove hd
  | cons b bs ih =>
      intro i defers d hd
      by_cases hb : trimSpace b.commands = ""
      · rw [applyLoop_cons_skip runRes b bs i defers hb]
        exact ih (i + 1) defers d hd
      · match hr : runRes i with
        | none =>
            rw [applyLoop_cons_none runRes b bs i defers hb hr]
            have := ih (i + 1) (i :: defers) d (List.mem_cons_of_mem i hd)
            simp only [List.mem_cons]
            tauto
        | some e =>
            rw [applyLoop_cons_some runRes b bs i defers e hb hr]
            have : ApplyEvent.remove d ∈ (i :: defers).map ApplyEvent.remove :=
              List.mem_map_of_mem ApplyEvent.remove (List.mem_cons_of_mem i hd)
            simp only [List.mem_cons]
            tauto

/-- Every temp script the loop materializes is removed in its final
trace, on every return path. -/
lemma applyLoop_created_removed (runRes : Nat → Option String) :
    ∀ (rest : List NamedCommandBlock) (i : Nat) (defers : List Nat) (j : Nat),
      ApplyEvent.create j ∈ (applyLoop runRes rest i defers).2 →
      ApplyEvent.remove j ∈ (applyLoop runRes rest i defers).2 := by
  intro rest
  induction rest with
  | nil =>
      intro i defers j hc
      rw [applyLoop_nil] at hc
      simp [List.mem_map] at hc
  | cons b bs ih =>
      intro i defers j hc
      by_cases hb : trimSpace b.commands = ""
      · rw [applyLoop_cons_skip runRes b bs i defers hb] at hc ⊢
        exact ih (i + 1) defers j hc
      · match hr : runRes i with
        | none =>
            rw [applyLoop_cons_none runRes b bs i defers hb hr] at hc ⊢
            simp only [List.mem_cons] at hc ⊢
            rcases hc with hc | hc | hc
            · have hji : j = i := by injection hc
              subst hji
              have hmem : j ∈ j :: defers := List.mem_cons_self j defers
              exact Or.inr (Or.inr
                (applyLoop_defers_removed runRes bs (j + 1) (j :: defers) j hmem))
            · exact absurd hc (by simp)
            · exact Or.inr (Or.inr (ih (i + 1) (i :: defers) j hc))
        | some e =>
            rw [applyLoop_cons_some runRes b bs i defers e hb hr] at hc ⊢
            simp only [List.mem_cons, List.mem_map] at hc ⊢
            rcases hc with hc | hc | hc
            · have hji : j = i := by injection hc
              subst hji
              exact Or.inr (Or.inr ⟨j, Or.inl rfl, rfl⟩)
            · exact absurd hc (by simp)
            · rcases hc with ⟨a, _, ha⟩
              exact absurd ha (by simp)

/-- C2: in Apply mode, when the block at index `j` is the first whose
script execution fails (all blocks have non-blank commands, so none is
skipped), the outcome reports exactly that block — its name, the
execution error details, and its exact command text; the executed
scripts are exactly those at indices 0 through `j` (so no later block
runs, and the earlier blocks were run and are never rolled back — the
trace contains no compensating events); and the process exit code is 1. -/
theorem apply_fail_fast (runRes : Nat → Option String)
    (blocks : List NamedCommandBlock) (j : Nat) (e : String)
    (hne : ∀ b ∈ blocks, trimSpace b.commands ≠ "")
    (hj : j < blocks.length)
    (hbefore : ∀ k, k < j → runRes k = none)
    (hfail : runRes j = some e) :
    (applyBlocks runRes blocks).1 =
      ApplyOutcome.failed
        ⟨(blocks.get ⟨j, hj⟩).name, e, (blocks.get ⟨j, hj⟩).commands⟩ ∧
    (∀ k, ApplyEvent.exec k ∈ (applyBlocks runRes blocks).2 ↔ k ≤ j) ∧
    applyExitCode (applyBlocks runRes blocks).1 = 1 := by
  have hbne : blocks ≠ [] := by
    intro h
    rw [h] at hj
    exact absurd hj (Nat.not_lt_zero j)
  have hloop := applyLoop_first_fail runRes blocks j 0 [] e hne hj
    (by simpa using hbefore) (by simpa using hfail)
  have hblocks : applyBlocks runRes blocks = applyLoop runRes blocks 0 [] := by
    simp [applyBlocks, hbne]
  rw [hblocks]
  refine ⟨hloop.1, ?_, ?_⟩
  · intro k
    rw [hloop.2 k]
    omega
  · rw [hloop.1]
    rfl

/-- C2 witness: three blocks where the second fails. -/
theorem apply_fail_fast_witness :
    (applyBlocks (fun k => if k = 1 then some "exit status 1" else none)
        [⟨"Packages", "dnf install -y nginx"⟩,
         ⟨"Hostname", "echo 'my-server' > /etc/hostname"⟩,
         ⟨"Services", "systemctl enable nginx"⟩]).1 =
      ApplyOutcome.failed
        ⟨"Hostname", "exit status 1", "echo 'my-server' > /etc/hostname"⟩ ∧
    ApplyEvent.exec 0 ∈
      (applyBlocks (fun k => if k = 1 then some "exit status 1" else none)
        [⟨"Packages", "dnf install -y nginx"⟩,
         ⟨"Hostname", "echo 'my-server' > /etc/hostname"⟩,
         ⟨"Services", "systemctl enable nginx"⟩]).2 ∧
    ApplyEvent.exec 2 ∉
      (applyBlocks (fun k => if k = 1 then some "exit status 1" else none)
        [⟨"Packages", "dnf install -y nginx"⟩,
         ⟨"Hostname", "echo 'my-server' > /etc/hostname"⟩,
         ⟨"Services", "systemctl enable nginx"⟩]).2 ∧
    applyExitCode
      (applyBlocks (fun k => if k = 1 then some "exit status 1" else none)
        [⟨"Packages", "dnf install -y nginx"⟩,
         ⟨"Hostname", "echo 'my-server' > /etc/hostname"⟩,
         ⟨"Services", "systemctl enable nginx"⟩]).1 = 1 := by
  have h := apply_fail_fast (fun k => if k = 1 then some "exit status 1" else none)
    [⟨"Packages", "dnf install -y nginx"⟩,
     ⟨"Hostname", "echo 'my-server' > /etc/hostname"⟩,
     ⟨"Services", "systemctl enable nginx"⟩] 1 "exit status 1"
    (by decide) (by decide)
    (by intro k hk; have hk0 : k = 0 := by omega
        subst hk0; rfl)
    rfl
  refine ⟨h.1, (h.2.1 0).mpr (by omega), ?_, h.2.2⟩
  intro hm
  have := (h.2.1 2).mp hm
  omega

/-- The blocks of the C3 scenario: two blocks whose scripts both
succeed. -/
def c3Blocks : List NamedCommandBlock :=
  [⟨"Packages", "dnf install -y nginx"⟩,
   ⟨"Hostname", "echo 'my-server' > /etc/hostname"⟩]

/-- C3 counterexample: with two successful blocks, the first block's
temp script is removed only by the deferred cleanup at function return —
after the second block's script was materialized and run — so removal
does not happen before the next block is processed. -/
theorem apply_removal_not_before_next :
    ¬ removalBeforeNextProcessed (applyBlocks (fun _ => none) c3Blocks).2 := by
  intro h
  have h0 := h 0 (by decide)
  exact absurd h0.2 (by decide)

/-- C3 as amended: every temp script materialized during apply is
removed by the time the apply command returns, on every exit path
(success or failure) — but for a successful block the removal is the
function-exit deferred cleanup, which runs after later blocks were
processed, not before the next block. -/
theorem apply_temp_removed (runRes : Nat → Option String)
    (blocks : List NamedCommandBlock) (i : Nat)
    (hc : ApplyEvent.create i ∈ (applyBlocks runRes blocks).2) :
    ApplyEvent.remove i ∈ (applyBlocks runRes blocks).2 := by
  by_cases hb : blocks = []
  · rw [hb] at hc
    simp [applyBlocks] at hc
  · have hblocks : applyBlocks runRes blocks = applyLoop runRes blocks 0 [] := by
      simp [applyBlocks, hb]
    rw [hblocks] at hc ⊢
    exact applyLoop_created_removed runRes blocks 0 [] i hc

/-- C3 witness: the amended theorem applied at the two-block scenario. -/
theorem apply_temp_removed_witness :
    ApplyEvent.remove 0 ∈ (applyBlocks (fun _ => none) c3Blocks).2 :=
  apply_temp_removed (fun _ => none) c3Blocks 0 (by decide)

end Imagecfg
